import Mathlib

/-!
Shallow embedding of the agentfs SQLite-backed VFS adapter
(src/sandbox/src/vfs/sqlite.rs) and of the SDK connection pool
(src/sdk/rust/src/connection_pool.rs).

Rust `str` path values are modelled as lists of characters; i32/i64/usize
machine integers are modelled as Nat bit patterns or Int with explicit
casts where a cast appears in the source. Fallible operations return
Except VfsError. The agentfs-sdk FileSystem implementation is not part of
the sources; where an operation of it decides a claim it is modelled from
the spec and marked as such.
-/

deriving instance DecidableEq for Except

abbrev Str := List Char

def chars (s : String) : Str := s.toList

/-- Linux libc flag constants used by the adapter. -/
def O_CREAT : Nat := 64
def O_EXCL : Nat := 128
def O_TRUNC : Nat := 512
def O_APPEND : Nat := 1024
def F_GETFL : Nat := 3
def F_SETFL : Nat := 4

/-- Rust `as usize` on an i64 value (two-complement bit pattern). -/
def usizeCast (i : Int) : Nat := (i % (2 ^ 64 : Int)).toNat

/-- Rust `as i64` on a usize value (two-complement bit pattern). -/
def i64Cast (n : Nat) : Int :=
  let m : Nat := n % 2 ^ 64
  if m < 2 ^ 63 then (m : Int) else (m : Int) - 2 ^ 64

/-- Error type of the vfs layer. The enum itself lives in a vfs module that
is not among the sources; modelled from the spec: the taxonomy of section 7
(NotFound, AlreadyExists, PermissionDenied, NotDirectory, IsDirectory,
NotEmpty, ReadOnly, InvalidInput, NotSupported, Storage, Internal),
extended with the message-carrying Other variant which sqlite.rs
constructs throughout. -/
inductive VfsError where
  | NotFound
  | AlreadyExists
  | PermissionDenied
  | NotDirectory
  | IsDirectory
  | NotEmpty
  | ReadOnly
  | InvalidInput (msg : String)
  | NotSupported
  | Storage (msg : String)
  | Internal
  | Other (msg : String)
  deriving DecidableEq

/-- Rust str::split on a slash: the pieces between the slashes, empty pieces
included. -/
def splitOnSlash : Str → List Str
  | [] => [[]]
  | c :: rest =>
    let r := splitOnSlash rest
    if c = '/' then [] :: r
    else
      match r with
      | [] => [[c]]
      | s :: ss => (c :: s) :: ss

/-- path.split( '/' ).filter(!is_empty) as used by the walking loops. -/
def components (p : Str) : List Str := (splitOnSlash p).filter (fun s => !s.isEmpty)

/-- Rust str::trim_end_matches on a slash. -/
def trimEndSlashes (p : Str) : Str := (p.reverse.dropWhile (fun c => c = '/')).reverse

/-- Rust str::rfind on a slash: index of the last slash, if any. -/
def rfindSlash : Str → Option Nat
  | [] => none
  | c :: rest =>
    match rfindSlash rest with
    | some i => some (i + 1)
    | none => if c = '/' then some 0 else none

/-- SqliteVfs::split_path (sqlite.rs lines 91-104). -/
def split_path (path : Str) : Except VfsError (Str × Str) :=
  if path = ['/'] then Except.error (VfsError.InvalidInput "Cannot split root path")
  else
    let p := trimEndSlashes path
    match rfindSlash p with
    | some pos => Except.ok (if pos = 0 then ['/'] else p.take pos, p.drop (pos + 1))
    | none => Except.ok (['/'], p)

/-- SqliteVfs::translate_to_relative (sqlite.rs lines 51-71): strip the
mount-point prefix, or fail NotFound. -/
def translate_to_relative (mount path : Str) : Except VfsError Str :=
  if path = mount then Except.ok ['/']
  else if (mount ++ ['/']).isPrefixOf path then Except.ok ('/' :: path.drop (mount.length + 1))
  else Except.error VfsError.NotFound

/-- SqliteVfs::translate_path (sqlite.rs lines 109-125): only a plain
string-prefix test against the mount point. -/
def translate_path (mount path : Str) : Except VfsError Str :=
  if mount.isPrefixOf path then Except.ok path else Except.error VfsError.NotFound

/-- Root inode number (sqlite.rs line 9). -/
def ROOT_INO : Int := 1

/-- Inode kinds relevant to the adapter. -/
inductive Kind where
  | file
  | dir
  | symlink (target : Str)
  deriving DecidableEq

/-- The attrs the adapter consumes from the SDK stat record. -/
structure Stats where
  ino : Int
  kind : Kind
  size : Int
  deriving DecidableEq

/-- Modelled from the spec: the state of the agentfs-sdk FileSystem (the SDK
sources are not in the repository snapshot): dirent triples
(parent, name, child), an inode table, per-inode file content, and the next
fresh inode number. -/
structure FsState where
  dirents : List (Int × Str × Int)
  inodes : List (Int × Kind)
  contents : List (Int × List UInt8)
  nextIno : Int
  deriving DecidableEq

def kindOf (fs : FsState) (ino : Int) : Option Kind :=
  (fs.inodes.find? (fun e => e.1 == ino)).map (fun e => e.2)

def getContent (fs : FsState) (ino : Int) : List UInt8 :=
  ((fs.contents.find? (fun e => e.1 == ino)).map (fun e => e.2)).getD []

def statsOf (fs : FsState) (ino : Int) : Option Stats :=
  (kindOf fs ino).map (fun k => ⟨ino, k, ((getContent fs ino).length : Int)⟩)

/-- Modelled from the spec: FileSystem::getattr returns attrs or none. -/
def getattr (fs : FsState) (ino : Int) : Option Stats := statsOf fs ino

/-- Modelled from the spec: FileSystem::lookup(parent, name) returns the
child attrs or none; a plain dirent lookup, it does not follow symlinks. -/
def lookup (fs : FsState) (parent : Int) (name : Str) : Option Stats :=
  (fs.dirents.find? (fun e => e.1 == parent && e.2.1 == name)).bind
    (fun e => statsOf fs e.2.2)

/-- The per-component loop shared by SqliteVfs::resolve_path (lines 79-85)
and SqliteFileOps::get_or_create_ino (lines 360-366). -/
def walkFrom (fs : FsState) (start : Int) : List Str → Except VfsError Int
  | [] => Except.ok start
  | c :: rest =>
    match lookup fs start c with
    | none => Except.error VfsError.NotFound
    | some st => walkFrom fs st.ino rest

/-- SqliteVfs::resolve_path (sqlite.rs lines 74-88). -/
def resolve_path (fs : FsState) (path : Str) : Except VfsError Int :=
  if path = ['/'] then Except.ok ROOT_INO
  else walkFrom fs ROOT_INO (components path)

/-- SqliteFileOps handle state (sqlite.rs lines 339-347). -/
structure FileHandle where
  ino : Int
  path : Str
  data : List UInt8
  offset : Int
  flags : Nat
  dirty : Bool
  deriving DecidableEq

/-- SqliteDirectoryOps handle state (sqlite.rs lines 552-561). -/
structure DirHandle where
  ino : Int
  path : Str
  flags : Nat
  entries : Option (List (Nat × Str × Nat))
  position : Nat
  deriving DecidableEq

inductive OpenedHandle where
  | file (h : FileHandle)
  | dir (h : DirHandle)
  deriving DecidableEq

/-- SqliteVfs::open (sqlite.rs lines 131-201). -/
def openVfs (fs : FsState) (mount path : Str) (flags : Nat) : Except VfsError OpenedHandle :=
  match translate_to_relative mount path with
  | .error e => .error e
  | .ok rel =>
    let stats? : Except VfsError (Option Stats) :=
      if rel = ['/'] then Except.ok (getattr fs ROOT_INO)
      else
        match split_path rel with
        | .error e => .error e
        | .ok pn =>
          match resolve_path fs pn.1 with
          | .error e => .error e
          | .ok pino => Except.ok (lookup fs pino pn.2)
    match stats? with
    | .error e => .error e
    | .ok (some st) =>
      if st.kind = Kind.dir then
        Except.ok (OpenedHandle.dir ⟨st.ino, rel, flags, none, 0⟩)
      else
        let d : List UInt8 :=
          if flags &&& O_TRUNC ≠ 0 then []
          else (getContent fs st.ino).take (usizeCast st.size)
        Except.ok (OpenedHandle.file ⟨st.ino, rel, d, 0, flags, decide (flags &&& O_TRUNC ≠ 0)⟩)
    | .ok none =>
      if flags &&& O_CREAT ≠ 0 then
        Except.ok (OpenedHandle.file ⟨0, rel, [], 0, flags, true⟩)
      else
        Except.error VfsError.NotFound

/-- SqliteFileOps::read (sqlite.rs lines 378-393). -/
def fileRead (h : FileHandle) (bufLen : Nat) : Except VfsError (List UInt8 × FileHandle) :=
  let start := usizeCast h.offset
  if h.data.length ≤ start then Except.ok ([], h)
  else
    let e := min (start + bufLen) h.data.length
    Except.ok ((h.data.drop start).take (e - start),
      { h with offset := h.offset + ((e - start : Nat) : Int) })

/-- SqliteFileOps::write (sqlite.rs lines 395-419). -/
def fileWrite (h : FileHandle) (buf : List UInt8) : FileHandle :=
  let start := if h.flags &&& O_APPEND ≠ 0 then h.data.length else usizeCast h.offset
  let data1 := if h.data.length < start + buf.length
               then h.data ++ List.replicate (start + buf.length - h.data.length) 0
               else h.data
  let data2 := data1.take start ++ buf ++ data1.drop (start + buf.length)
  { h with data := data2, offset := i64Cast (start + buf.length), dirty := true }

/-- Modelled from the spec: AgentFS create_file atomically creates the inode
and dirent and fails AlreadyExists if the name exists; mode/uid/gid (0o644,
0, 0 at the call site) are not part of the modelled attrs. -/
def create_file (fs : FsState) (parent : Int) (name : Str) : Except VfsError (Stats × FsState) :=
  if (lookup fs parent name).isSome then Except.error VfsError.AlreadyExists
  else
    Except.ok (⟨fs.nextIno, Kind.file, 0⟩,
      { dirents := (parent, name, fs.nextIno) :: fs.dirents,
        inodes := (fs.nextIno, Kind.file) :: fs.inodes,
        contents := (fs.nextIno, []) :: fs.contents,
        nextIno := fs.nextIno + 1 })

/-- SqliteFileOps::get_or_create_ino (sqlite.rs lines 351-373). -/
def get_or_create_ino (fs : FsState) (h : FileHandle) : Except VfsError (Int × FsState) :=
  if h.ino ≠ 0 then Except.ok (h.ino, fs)
  else
    match split_path h.path with
    | .error e => .error e
    | .ok pn =>
      match walkFrom fs ROOT_INO (components pn.1) with
      | .error e => .error e
      | .ok pino =>
        match create_file fs pino pn.2 with
        | .error e => .error e
        | .ok r => Except.ok (r.1.ino, r.2)

/-- Net effect on the store of pwrite(0, data) followed by truncate(len)
(modelled from the spec contract of the SDK file handle): the stored
content becomes exactly the given bytes. -/
def setContent (fs : FsState) (ino : Int) (d : List UInt8) : FsState :=
  { fs with contents := (ino, d) :: fs.contents.filter (fun e => e.1 != ino) }

/-- SqliteFileOps::fsync (sqlite.rs lines 476-502). -/
def fileFsync (fs : FsState) (h : FileHandle) : Except VfsError (FsState × FileHandle) :=
  if h.dirty = false then Except.ok (fs, h)
  else
    match get_or_create_ino fs h with
    | .error e => .error e
    | .ok r => Except.ok (setContent r.2 r.1 h.data, { h with dirty := false })

/-- SqliteFileOps::close (sqlite.rs lines 533-536): close just calls fsync. -/
def fileClose (fs : FsState) (h : FileHandle) : Except VfsError (FsState × FileHandle) :=
  fileFsync fs h

/-- SqliteFileOps::fcntl (sqlite.rs lines 509-521). -/
def fileFcntl (h : FileHandle) (cmd : Nat) (arg : Nat) : Except VfsError (Int × FileHandle) :=
  if cmd = F_GETFL then Except.ok ((h.flags : Int), h)
  else if cmd = F_SETFL then Except.ok (0, { h with flags := arg % 2 ^ 32 })
  else Except.error (VfsError.Other ("Unsupported fcntl command: " ++ toString cmd))

/-- SqliteFileOps::ioctl (sqlite.rs lines 523-526). -/
def fileIoctl (_h : FileHandle) (_request : Nat) (_arg : Nat) : Except VfsError Int :=
  Except.error (VfsError.Other "ioctl not supported")

/-- SqliteDirectoryOps::fcntl (sqlite.rs lines 623-635). -/
def dirFcntl (h : DirHandle) (cmd : Nat) (arg : Nat) : Except VfsError (Int × DirHandle) :=
  if cmd = F_GETFL then Except.ok ((h.flags : Int), h)
  else if cmd = F_SETFL then Except.ok (0, { h with flags := arg % 2 ^ 32 })
  else Except.error (VfsError.Other ("Unsupported fcntl command: " ++ toString cmd))

/-- SqliteDirectoryOps::ioctl (sqlite.rs lines 637-640). -/
def dirIoctl (_h : DirHandle) (_request : Nat) (_arg : Nat) : Except VfsError Int :=
  Except.error (VfsError.Other "ioctl not supported")

/-- The mount point used by the concrete examples, as in the spec. -/
def mountEx : Str := chars "/agent"

/-- A concrete store: the root directory holding one empty regular file f
with inode 2. -/
def exFs1 : FsState :=
  { dirents := [(1, chars "f", 2)],
    inodes := [(1, Kind.dir), (2, Kind.file)],
    contents := [(2, [])],
    nextIno := 3 }

/-- Distinct names for the symlink chain: s, sx, sxx, ... -/
def sName (i : Nat) : Str := 's' :: List.replicate i 'x'

/-- A store whose root directory holds a chain of n symlinks, each naming
the next one as its target. -/
def chainFs (n : Nat) : FsState :=
  { dirents := (List.range n).map (fun i => (((1 : Int), sName i, Int.ofNat i + 2) : Int × Str × Int)),
    inodes := (1, Kind.dir) :: (List.range n).map
      (fun i => ((Int.ofNat i + 2, Kind.symlink ('/' :: sName (i + 1))) : Int × Kind)),
    contents := [],
    nextIno := Int.ofNat n + 2 }

/-- A concrete store holding only the root directory. -/
def exFs5 : FsState := { dirents := [], inodes := [(1, Kind.dir)], contents := [], nextIno := 2 }

/-- A concrete file handle. -/
def exFh : FileHandle := ⟨2, chars "/f", [], 0, 0, false⟩

/-- A concrete directory handle. -/
def exDh : DirHandle := ⟨1, chars "/", 0, none, 0⟩

/-- A sibling path sharing the mount point as a string prefix. -/
def pathSib : Str := chars "/agentfoo"

/-- Connection identity; turso Connection values are opaque to the pool, so
a connection is modelled as a bare identifier. -/
abbrev Conn := Nat

/-- The pool state (connection_pool.rs lines 26-29): the idle Vec, with its
push/pop end modelled as the list head, plus a counter supplying the
identity of the next freshly opened connection. -/
structure PoolState where
  idle : List Conn
  nextConn : Nat
  deriving DecidableEq

/-- ConnectionPool::get_conn (connection_pool.rs lines 59-77): pop the top
of the idle stack, else open a fresh connection via db.connect. -/
def get_conn (p : PoolState) : Conn × PoolState :=
  match p.idle with
  | c :: rest => (c, { p with idle := rest })
  | [] => (p.nextConn, { idle := [], nextConn := p.nextConn + 1 })

/-- PooledConnection::drop (connection_pool.rs lines 120-127): the wrapper
always pushes its connection back onto the stack. -/
def dropPooled (c : Conn) (p : PoolState) : PoolState := { p with idle := c :: p.idle }

def emptyPool : PoolState := ⟨[], 0⟩

/-- The handle SqliteVfs::open builds for an existing non-directory opened
with O_APPEND (O_TRUNC clear), sqlite.rs lines 157-176: the whole current
content is snapshotted into the buffer, offset 0, not dirty. -/
def openAppendHandle (db : List UInt8) : FileHandle := ⟨2, chars "/f", db, 0, O_APPEND, false⟩

/-- SqliteFileOps::fsync, equally close (lines 476-502, 533-536), for a
handle with nonzero inode on a single-file store: if dirty, pwrite(0, data)
plus truncate(len) replace the persisted bytes with the buffer and the
dirty flag clears; otherwise nothing happens. -/
def closeAppend (db : List UInt8) (h : FileHandle) : List UInt8 × FileHandle :=
  if h.dirty then (h.data, { h with dirty := false }) else (db, h)

/-- The operations of the two-handle O_APPEND scenario. -/
inductive C3Op where
  | openA
  | openB
  | writeA (buf : List UInt8)
  | writeB (buf : List UInt8)
  | closeA
  | closeB
  deriving DecidableEq

/-- Joint state of the persisted file and the two handles. -/
structure AppendSt where
  db : List UInt8
  a : Option FileHandle
  b : Option FileHandle
  deriving DecidableEq

/-- One step of the scenario; writes and closes on a handle that is not
open leave the state unchanged. -/
def c3step (s : AppendSt) : C3Op → AppendSt
  | C3Op.openA => { s with a := some (openAppendHandle s.db) }
  | C3Op.openB => { s with b := some (openAppendHandle s.db) }
  | C3Op.writeA buf =>
    match s.a with
    | some h => { s with a := some (fileWrite h buf) }
    | none => s
  | C3Op.writeB buf =>
    match s.b with
    | some h => { s with b := some (fileWrite h buf) }
    | none => s
  | C3Op.closeA =>
    match s.a with
    | some h => { s with db := (closeAppend s.db h).1, a := some (closeAppend s.db h).2 }
    | none => s
  | C3Op.closeB =>
    match s.b with
    | some h => { s with db := (closeAppend s.db h).1, b := some (closeAppend s.db h).2 }
    | none => s

/-- Run an interleaving of the scenario from an empty persisted file. -/
def c3run (ops : List C3Op) : AppendSt := ops.foldl c3step ⟨[], none, none⟩

/-- A clean (not dirty) concrete handle on inode 2. -/
def hClean10 : FileHandle := ⟨2, chars "/f", [9], 0, 0, false⟩

/-- The same handle with the dirty flag set. -/
def hDirty10 : FileHandle := ⟨2, chars "/f", [9], 0, 0, true⟩

/-- The store after flushing hDirty10. -/
def fsAfter10 : FsState := setContent exFs1 2 [9]

/-- Boolean list prefix test agrees with the existence of a remainder. -/
theorem isPrefixOf_exists (l : Str) : ∀ p : Str, l.isPrefixOf p = true ↔ ∃ t, p = l ++ t := by
  induction l with
  | nil => intro p; simp [List.isPrefixOf]
  | cons a as ih =>
    intro p
    cases p with
    | nil => simp [List.isPrefixOf]
    | cons b bs =>
      simp only [List.isPrefixOf, Bool.and_eq_true, beq_iff_eq, ih, List.cons_append,
        List.cons.injEq]
      constructor
      · rintro ⟨hab, t, ht⟩
        exact ⟨t, hab.symm, ht⟩
      · rintro ⟨t, hba, ht⟩
        exact ⟨hba.symm, t, ht⟩

/-- The usize-to-i64 cast is the identity below 2 to the 63. -/
theorem i64Cast_small (n : Nat) (h : n < 2 ^ 63) : i64Cast n = (n : Int) := by
  unfold i64Cast
  have h64 : n < 2 ^ 64 := lt_trans h (by norm_num)
  rw [Nat.mod_eq_of_lt h64, if_pos h]

/-- With O_APPEND set, write resolves to appending the buffer at the end of
the content, setting the offset to the new length and the dirty flag. -/
theorem fileWrite_append_eq (h : FileHandle) (buf : List UInt8)
    (hap : h.flags &&& O_APPEND ≠ 0) :
    fileWrite h buf =
      { h with data := h.data ++ buf,
               offset := i64Cast (h.data.length + buf.length),
               dirty := true } := by
  unfold fileWrite
  dsimp only
  rw [if_pos hap]
  rcases Nat.eq_zero_or_pos buf.length with hb | hb
  · have hbe : buf = [] := List.length_eq_zero.mp hb
    subst hbe
    simp
  · rw [if_pos (show h.data.length < h.data.length + buf.length by omega)]
    have hnn : h.data.length + buf.length - h.data.length = buf.length := by omega
    rw [hnn]
    have htake : (h.data ++ List.replicate buf.length (0 : UInt8)).take h.data.length = h.data :=
      List.take_left h.data (List.replicate buf.length 0)
    have hdrop : (h.data ++ List.replicate buf.length (0 : UInt8)).drop
        (h.data.length + buf.length) = [] := by
      apply List.drop_eq_nil_of_le
      simp
    rw [htake, hdrop]
    simp

/-- The component walk can only succeed or fail NotFound. -/
theorem walkFrom_cases (fs : FsState) : ∀ (l : List Str) (start : Int),
    walkFrom fs start l = Except.error VfsError.NotFound ∨
      ∃ i, walkFrom fs start l = Except.ok i := by
  intro l
  induction l with
  | nil => intro start; exact Or.inr ⟨start, rfl⟩
  | cons c rest ih =>
    intro start
    cases hl : lookup fs start c with
    | none => left; simp [walkFrom, hl]
    | some st => simpa [walkFrom, hl] using ih st.ino

/-- resolve_path agrees with the bare component walk from the root. -/
theorem resolve_to_walk (fs : FsState) (p : Str) (i : Int)
    (h : resolve_path fs p = Except.ok i) :
    walkFrom fs ROOT_INO (components p) = Except.ok i := by
  by_cases hp : p = ['/']
  · subst hp
    simp [resolve_path] at h
    rw [show components ['/'] = [] from rfl]
    simp [walkFrom, h]
  · simpa [resolve_path, hp] using h

/-- C1: evaluation at the failing input. With mount point /agent and the
file f already existing under the root, open with flags O_CREAT together
with O_EXCL returns a handle on the existing inode 2 instead of failing
AlreadyExists: SqliteVfs::open never inspects O_EXCL. -/
theorem c1_code_eval :
    openVfs exFs1 mountEx (chars "/agent/f") (O_CREAT ||| O_EXCL) =
      Except.ok (OpenedHandle.file ⟨2, chars "/f", [], 0, O_CREAT ||| O_EXCL, false⟩) ∧
    openVfs exFs1 mountEx (chars "/agent/f") (O_CREAT ||| O_EXCL) ≠
      Except.error VfsError.AlreadyExists := by
  exact ⟨by decide, by decide⟩

/-- C2: evaluation at the failing input. On a chain of 41 root-level
symlinks, each naming the next, resolving the first name returns the inode
of that symlink itself: the walk never resolves symlinks, keeps no depth
counter, and in general can only succeed or fail NotFound — no loop error
is ever produced. -/
theorem c2_code_eval :
    resolve_path (chainFs 41) (chars "/s") = Except.ok 2 ∧
    kindOf (chainFs 41) 2 = some (Kind.symlink ('/' :: sName 1)) ∧
    (∀ (fs : FsState) (p : Str),
      resolve_path fs p = Except.error VfsError.NotFound ∨
        ∃ i, resolve_path fs p = Except.ok i) := by
  refine ⟨by decide, by decide, ?_⟩
  intro fs p
  by_cases hp : p = ['/']
  · subst hp
    exact Or.inr ⟨ROOT_INO, by simp [resolve_path]⟩
  · simpa [resolve_path, hp] using walkFrom_cases fs (components p) ROOT_INO

/-- C3 counterexample: with both handles open concurrently (each buffering
a private snapshot of the file), two 4-byte O_APPEND writes followed by the
two closes leave only the second write persisted: 4 bytes, not 8, and the
first write is overwritten. -/
theorem c3_counterexample :
    (c3run [C3Op.openA, C3Op.openB, C3Op.writeA [1, 1, 1, 1], C3Op.writeB [2, 2, 2, 2],
            C3Op.closeA, C3Op.closeB]).db = [2, 2, 2, 2] ∧
    (c3run [C3Op.openA, C3Op.openB, C3Op.writeA [1, 1, 1, 1], C3Op.writeB [2, 2, 2, 2],
            C3Op.closeA, C3Op.closeB]).db.length ≠ 8 := by
  exact ⟨by decide, by decide⟩

/-- C3 (amended): when the two O_APPEND handles have disjoint lifetimes —
the first handle is closed before the second one opens — and each writes 4
bytes, the final persisted content is the concatenation of the two writes
and its size is 8 bytes; neither write overwrites the other. -/
theorem c3_serial_append (w1 w2 : List UInt8) (h1 : w1.length = 4) (h2 : w2.length = 4) :
    (c3run [C3Op.openA, C3Op.writeA w1, C3Op.closeA,
            C3Op.openB, C3Op.writeB w2, C3Op.closeB]).db = w1 ++ w2 ∧
    (c3run [C3Op.openA, C3Op.writeA w1, C3Op.closeA,
            C3Op.openB, C3Op.writeB w2, C3Op.closeB]).db.length = 8 := by
  have hw1 : fileWrite ⟨2, chars "/f", [], 0, O_APPEND, false⟩ w1
      = ⟨2, chars "/f", w1, i64Cast w1.length, O_APPEND, true⟩ := by
    simpa using fileWrite_append_eq ⟨2, chars "/f", [], 0, O_APPEND, false⟩ w1
      (by dsimp only; decide)
  have hw2 : fileWrite ⟨2, chars "/f", w1, 0, O_APPEND, false⟩ w2
      = ⟨2, chars "/f", w1 ++ w2, i64Cast (w1.length + w2.length), O_APPEND, true⟩ := by
    simpa using fileWrite_append_eq ⟨2, chars "/f", w1, 0, O_APPEND, false⟩ w2
      (by dsimp only; decide)
  have key : c3run [C3Op.openA, C3Op.writeA w1, C3Op.closeA,
      C3Op.openB, C3Op.writeB w2, C3Op.closeB]
      = ⟨w1 ++ w2, some ⟨2, chars "/f", w1, i64Cast w1.length, O_APPEND, false⟩,
          some ⟨2, chars "/f", w1 ++ w2, i64Cast (w1.length + w2.length), O_APPEND, false⟩⟩ := by
    have e0 : c3run [C3Op.openA, C3Op.writeA w1, C3Op.closeA,
        C3Op.openB, C3Op.writeB w2, C3Op.closeB]
        = c3step (c3step (c3step (c3step (c3step (c3step ⟨[], none, none⟩ C3Op.openA)
            (C3Op.writeA w1)) C3Op.closeA) C3Op.openB) (C3Op.writeB w2)) C3Op.closeB := rfl
    rw [e0]
    rw [show c3step (⟨[], none, none⟩ : AppendSt) C3Op.openA
        = ⟨[], some ⟨2, chars "/f", [], 0, O_APPEND, false⟩, none⟩ from rfl]
    rw [show c3step (⟨[], some ⟨2, chars "/f", [], 0, O_APPEND, false⟩, none⟩ : AppendSt)
          (C3Op.writeA w1)
        = ⟨[], some (fileWrite ⟨2, chars "/f", [], 0, O_APPEND, false⟩ w1), none⟩ from rfl]
    rw [hw1]
    rw [show c3step (⟨[], some ⟨2, chars "/f", w1, i64Cast w1.length, O_APPEND, true⟩, none⟩ :
          AppendSt) C3Op.closeA
        = ⟨w1, some ⟨2, chars "/f", w1, i64Cast w1.length, O_APPEND, false⟩, none⟩ from rfl]
    rw [show c3step (⟨w1, some ⟨2, chars "/f", w1, i64Cast w1.length, O_APPEND, false⟩, none⟩ :
          AppendSt) C3Op.openB
        = ⟨w1, some ⟨2, chars "/f", w1, i64Cast w1.length, O_APPEND, false⟩,
            some ⟨2, chars "/f", w1, 0, O_APPEND, false⟩⟩ from rfl]
    rw [show c3step (⟨w1, some ⟨2, chars "/f", w1, i64Cast w1.length, O_APPEND, false⟩,
            some ⟨2, chars "/f", w1, 0, O_APPEND, false⟩⟩ : AppendSt) (C3Op.writeB w2)
        = ⟨w1, some ⟨2, chars "/f", w1, i64Cast w1.length, O_APPEND, false⟩,
            some (fileWrite ⟨2, chars "/f", w1, 0, O_APPEND, false⟩ w2)⟩ from rfl]
    rw [hw2]
    rfl
  rw [key]
  refine ⟨rfl, ?_⟩
  dsimp only
  simp [h1, h2]

/-- C3 witness: the serial scenario at concrete 4-byte writes. -/
theorem c3_witness :
    (c3run [C3Op.openA, C3Op.writeA [1, 1, 1, 1], C3Op.closeA,
            C3Op.openB, C3Op.writeB [2, 2, 2, 2], C3Op.closeB]).db = [1, 1, 1, 1] ++ [2, 2, 2, 2] ∧
    (c3run [C3Op.openA, C3Op.writeA [1, 1, 1, 1], C3Op.closeA,
            C3Op.openB, C3Op.writeB [2, 2, 2, 2], C3Op.closeB]).db.length = 8 :=
  c3_serial_append [1, 1, 1, 1] [2, 2, 2, 2] (by decide) (by decide)

/-- C4 (amended): translate_to_relative accepts a guest path exactly when
it equals the mount point or continues it past a slash separator, and every
other path is rejected with NotFound; translate_path, by contrast, only
tests that the mount string is a string prefix of the path string. -/
theorem c4_mount_acceptance : ∀ mount path : Str,
    ((translate_to_relative mount path).isOk = true ↔
      (path = mount ∨ ∃ rest, path = mount ++ '/' :: rest)) ∧
    (translate_to_relative mount path = Except.error VfsError.NotFound ∨
      ∃ r, translate_to_relative mount path = Except.ok r) ∧
    ((translate_path mount path).isOk = true ↔ ∃ rest, path = mount ++ rest) := by
  intro mount path
  refine ⟨?_, ?_, ?_⟩
  · constructor
    · intro hok
      by_cases h1 : path = mount
      · exact Or.inl h1
      · unfold translate_to_relative at hok
        rw [if_neg h1] at hok
        by_cases h2 : (mount ++ ['/']).isPrefixOf path = true
        · rcases (isPrefixOf_exists _ _).mp h2 with ⟨t, ht⟩
          exact Or.inr ⟨t, by simpa using ht⟩
        · rw [if_neg h2] at hok
          simp [Except.isOk, Except.toBool] at hok
    · intro hcase
      unfold translate_to_relative
      rcases hcase with h1 | ⟨rest, hr⟩
      · rw [if_pos h1]; rfl
      · by_cases h1 : path = mount
        · rw [if_pos h1]; rfl
        · rw [if_neg h1, if_pos ((isPrefixOf_exists _ _).mpr ⟨rest, by simpa using hr⟩)]
          rfl
  · unfold translate_to_relative
    by_cases h1 : path = mount
    · exact Or.inr ⟨_, by rw [if_pos h1]⟩
    · by_cases h2 : (mount ++ ['/']).isPrefixOf path = true
      · exact Or.inr ⟨_, by rw [if_neg h1, if_pos h2]⟩
      · exact Or.inl (by rw [if_neg h1, if_neg h2])
  · unfold translate_path
    by_cases h : mount.isPrefixOf path = true
    · rw [if_pos h]
      exact ⟨fun _ => (isPrefixOf_exists mount path).mp h, fun _ => rfl⟩
    · rw [if_neg h]
      constructor
      · intro hok; simp [Except.isOk, Except.toBool] at hok
      · intro hex; exact absurd ((isPrefixOf_exists mount path).mpr hex) h

/-- C4 witness: the amended statement at the concrete mount point /agent
and the path /agent/f. -/
theorem c4_witness :
    ((translate_to_relative mountEx (chars "/agent/f")).isOk = true ↔
      (chars "/agent/f" = mountEx ∨ ∃ rest, chars "/agent/f" = mountEx ++ '/' :: rest)) ∧
    (translate_to_relative mountEx (chars "/agent/f") = Except.error VfsError.NotFound ∨
      ∃ r, translate_to_relative mountEx (chars "/agent/f") = Except.ok r) ∧
    ((translate_path mountEx (chars "/agent/f")).isOk = true ↔
      ∃ rest, chars "/agent/f" = mountEx ++ rest) :=
  c4_mount_acceptance mountEx (chars "/agent/f")

/-- C4 counterexample: with mount point /agent, the path /agentfoo is
accepted by translate_path although it neither equals the mount point nor
lies beneath it, so the claimed equivalence fails for translate_path. -/
theorem c4_counterexample :
    ¬ (((translate_path mountEx pathSib).isOk = true) ↔
      (pathSib = mountEx ∨ ∃ rest, pathSib = mountEx ++ '/' :: rest)) := by
  intro hiff
  rcases hiff.mp (by decide) with h1 | ⟨rest, hr⟩
  · exact absurd h1 (by decide)
  · have hpre : (mountEx ++ ['/']).isPrefixOf pathSib = true :=
      (isPrefixOf_exists _ _).mpr ⟨rest, by simpa using hr⟩
    exact absurd hpre (by decide)

/-- C5 (amended): opening a missing final component with O_CREAT returns a
handle that holds inode 0 (pending creation) with an empty, dirty buffer;
the file itself is only created later, by create_file inside
get_or_create_ino (reached from fsync, close or fstat), which returns the
fresh nonzero inode. -/
theorem c5_deferred_create (fs : FsState) (mount path : Str) (flags : Nat)
    (rel pp nm : Str) (pino : Int)
    (htr : translate_to_relative mount path = Except.ok rel)
    (hrel : rel ≠ ['/'])
    (hsp : split_path rel = Except.ok (pp, nm))
    (hres : resolve_path fs pp = Except.ok pino)
    (hlk : lookup fs pino nm = none)
    (hcr : flags &&& O_CREAT ≠ 0)
    (hni : fs.nextIno ≠ 0) :
    openVfs fs mount path flags = Except.ok (OpenedHandle.file ⟨0, rel, [], 0, flags, true⟩) ∧
    ∃ fs2, get_or_create_ino fs ⟨0, rel, [], 0, flags, true⟩ = Except.ok (fs.nextIno, fs2) ∧
      fs.nextIno ≠ 0 := by
  constructor
  · unfold openVfs
    rw [htr]
    dsimp only
    rw [if_neg hrel, hsp]
    dsimp only
    rw [hres]
    dsimp only
    rw [hlk]
    dsimp only
    rw [if_pos hcr]
  · refine ⟨{ dirents := (pino, nm, fs.nextIno) :: fs.dirents,
              inodes := (fs.nextIno, Kind.file) :: fs.inodes,
              contents := (fs.nextIno, []) :: fs.contents,
              nextIno := fs.nextIno + 1 }, ?_, hni⟩
    unfold get_or_create_ino
    rw [if_neg (show ¬((0 : Int) ≠ 0) by simp)]
    dsimp only
    rw [hsp]
    dsimp only
    rw [resolve_to_walk fs pp pino hres]
    dsimp only
    simp [create_file, hlk]

/-- C5 witness: the amended statement at a concrete store holding only the
root directory, mount point /agent, path /agent/new, flags O_CREAT. -/
theorem c5_witness :
    openVfs exFs5 mountEx (chars "/agent/new") O_CREAT =
      Except.ok (OpenedHandle.file ⟨0, chars "/new", [], 0, O_CREAT, true⟩) ∧
    ∃ fs2, get_or_create_ino exFs5 ⟨0, chars "/new", [], 0, O_CREAT, true⟩ =
        Except.ok (exFs5.nextIno, fs2) ∧ exFs5.nextIno ≠ 0 :=
  c5_deferred_create exFs5 mountEx (chars "/agent/new") O_CREAT
    (chars "/new") (chars "/") (chars "new") 1
    (by decide) (by decide) (by decide) (by decide) (by decide) (by decide) (by decide)

/-- C5 counterexample: at a concrete store, open with O_CREAT on a missing
file returns a handle whose inode is 0; no handle with a nonzero inode is
returned, contradicting the claim that open itself creates the file and
returns the new inode. -/
theorem c5_counterexample :
    openVfs exFs5 mountEx (chars "/agent/new") O_CREAT =
      Except.ok (OpenedHandle.file ⟨0, chars "/new", [], 0, O_CREAT, true⟩) ∧
    ¬ ∃ h, openVfs exFs5 mountEx (chars "/agent/new") O_CREAT =
        Except.ok (OpenedHandle.file h) ∧ h.ino ≠ 0 := by
  refine ⟨by decide, ?_⟩
  rintro ⟨h, heq, hne⟩
  have h0 : openVfs exFs5 mountEx (chars "/agent/new") O_CREAT =
      Except.ok (OpenedHandle.file ⟨0, chars "/new", [], 0, O_CREAT, true⟩) := by decide
  rw [h0] at heq
  injection heq with h1
  injection h1 with h2
  exact hne (by rw [← h2])

/-- C6 (amended): every fcntl command other than F_GETFL and F_SETFL fails,
for file handles and directory handles alike, with the error
Other "Unsupported fcntl command: cmd", and every ioctl call fails with
Other "ioctl not supported" — not with the NotSupported taxonomy variant. -/
theorem c6_fcntl_ioctl (fh : FileHandle) (dh : DirHandle) (cmd arg req a2 : Nat)
    (h3 : cmd ≠ F_GETFL) (h4 : cmd ≠ F_SETFL) :
    fileFcntl fh cmd arg =
      Except.error (VfsError.Other ("Unsupported fcntl command: " ++ toString cmd)) ∧
    dirFcntl dh cmd arg =
      Except.error (VfsError.Other ("Unsupported fcntl command: " ++ toString cmd)) ∧
    fileIoctl fh req a2 = Except.error (VfsError.Other "ioctl not supported") ∧
    dirIoctl dh req a2 = Except.error (VfsError.Other "ioctl not supported") := by
  refine ⟨?_, ?_, rfl, rfl⟩
  · unfold fileFcntl; rw [if_neg h3, if_neg h4]
  · unfold dirFcntl; rw [if_neg h3, if_neg h4]

/-- C6 witness: the amended statement at concrete handles with the
unsupported command 5 (F_GETLK). -/
theorem c6_witness :
    fileFcntl exFh 5 0 =
      Except.error (VfsError.Other ("Unsupported fcntl command: " ++ toString (5 : Nat))) ∧
    dirFcntl exDh 5 0 =
      Except.error (VfsError.Other ("Unsupported fcntl command: " ++ toString (5 : Nat))) ∧
    fileIoctl exFh 1 2 = Except.error (VfsError.Other "ioctl not supported") ∧
    dirIoctl exDh 1 2 = Except.error (VfsError.Other "ioctl not supported") :=
  c6_fcntl_ioctl exFh exDh 5 0 1 2 (by decide) (by decide)

/-- C6 counterexample: the unsupported command 5 on a file handle fails
with the message-carrying Other error, which is not the NotSupported
variant the claim names. -/
theorem c6_counterexample :
    fileFcntl exFh 5 0 =
      Except.error (VfsError.Other ("Unsupported fcntl command: " ++ toString (5 : Nat))) ∧
    fileFcntl exFh 5 0 ≠ Except.error VfsError.NotSupported := by
  refine ⟨rfl, ?_⟩
  intro h
  simp [fileFcntl, F_GETFL, F_SETFL] at h

/-- C7: with O_APPEND in the handle flags, every write places its bytes at
the current end of the content — irrespective of the seek offset, as the
second conjunct states for an arbitrary offset — and advances the offset to
the new end of the content. -/
theorem c7_append_write (h : FileHandle) (buf : List UInt8)
    (hap : h.flags &&& O_APPEND ≠ 0)
    (hsz : h.data.length + buf.length < 2 ^ 63) :
    fileWrite h buf =
      { h with data := h.data ++ buf,
               offset := ((h.data.length + buf.length : Nat) : Int),
               dirty := true } ∧
    ∀ off : Int, (fileWrite { h with offset := off } buf).data = h.data ++ buf := by
  have base := fileWrite_append_eq h buf hap
  rw [i64Cast_small _ hsz] at base
  refine ⟨base, ?_⟩
  intro off
  have b2 := fileWrite_append_eq { h with offset := off } buf hap
  rw [b2]

/-- C7 witness: a concrete O_APPEND write lands at the end and moves the
offset to the new end, whatever the previous offset was. -/
theorem c7_witness :
    fileWrite ⟨2, chars "/f", [3], 7, O_APPEND, false⟩ [4, 5] =
      ⟨2, chars "/f", [3, 4, 5], 3, O_APPEND, true⟩ ∧
    (fileWrite ⟨2, chars "/f", [3], 99, O_APPEND, false⟩ [4, 5]).data = [3, 4, 5] := by
  have h := c7_append_write ⟨2, chars "/f", [3], 7, O_APPEND, false⟩ [4, 5] (by decide) (by decide)
  exact ⟨h.1.trans (by decide), (h.2 99).trans (by decide)⟩

/-- C8: a read whose start offset is at or past the end of content returns
zero bytes and leaves the handle unchanged; read never returns an error;
and a read reaching past the end returns exactly the bytes from the start
offset up to the end — a short read. -/
theorem c8_read_eof :
    (∀ (h : FileHandle) (n : Nat), h.data.length ≤ usizeCast h.offset →
      fileRead h n = Except.ok ([], h)) ∧
    (∀ (h : FileHandle) (n : Nat), (fileRead h n).isOk = true) ∧
    (∀ (h : FileHandle) (n : Nat), usizeCast h.offset < h.data.length →
      h.data.length ≤ usizeCast h.offset + n →
      fileRead h n = Except.ok (h.data.drop (usizeCast h.offset),
        { h with offset := h.offset + ((h.data.length - usizeCast h.offset : Nat) : Int) })) := by
  refine ⟨?_, ?_, ?_⟩
  · intro h n hle
    unfold fileRead
    dsimp only
    rw [if_pos hle]
  · intro h n
    unfold fileRead
    dsimp only
    by_cases hc : h.data.length ≤ usizeCast h.offset
    · rw [if_pos hc]; rfl
    · rw [if_neg hc]; rfl
  · intro h n hlt hle
    unfold fileRead
    dsimp only
    rw [if_neg (by omega)]
    rw [Nat.min_eq_right hle]
    have hlen : h.data.length - usizeCast h.offset = (h.data.drop (usizeCast h.offset)).length := by
      simp
    rw [hlen, List.take_length (h.data.drop (usizeCast h.offset))]

/-- C8 witness: a read at the end of a 1-byte file returns zero bytes, and
a 5-byte read starting at offset 1 of a 2-byte file returns the single
remaining byte. -/
theorem c8_witness :
    fileRead ⟨2, chars "/f", [9], 1, 0, false⟩ 3 =
      Except.ok ([], ⟨2, chars "/f", [9], 1, 0, false⟩) ∧
    fileRead ⟨2, chars "/f", [7, 9], 1, 0, false⟩ 5 =
      Except.ok ([9], ⟨2, chars "/f", [7, 9], 2, 0, false⟩) := by
  refine ⟨c8_read_eof.1 ⟨2, chars "/f", [9], 1, 0, false⟩ 3 (by decide), ?_⟩
  have h := c8_read_eof.2.2 ⟨2, chars "/f", [7, 9], 1, 0, false⟩ 5 (by decide) (by decide)
  exact h.trans (by decide)

/-- C9: the pool is a LIFO idle stack with no maximum size: get_conn after
a drop returns exactly the dropped connection and restores the previous
state; get_conn on an empty stack opens a fresh connection; and dropping n
wrappers onto the empty pool leaves an idle stack of n connections. -/
theorem c9_pool_lifo :
    (∀ (p : PoolState) (c : Conn), get_conn (dropPooled c p) = (c, p)) ∧
    (∀ p : PoolState, p.idle = [] →
      get_conn p = (p.nextConn, { idle := [], nextConn := p.nextConn + 1 })) ∧
    (∀ cs : List Conn,
      ((cs.foldl (fun s c => dropPooled c s) emptyPool).idle).length = cs.length) := by
  refine ⟨fun p c => rfl, ?_, ?_⟩
  · intro p hp
    cases p with
    | mk idle next =>
      cases hp
      rfl
  · have gen : ∀ (cs : List Conn) (p : PoolState),
        ((cs.foldl (fun s c => dropPooled c s) p).idle).length = p.idle.length + cs.length := by
      intro cs
      induction cs with
      | nil => intro p; simp
      | cons c rest ih =>
        intro p
        rw [List.foldl_cons, ih]
        simp [dropPooled]
        omega
    intro cs
    simpa [emptyPool] using gen cs emptyPool

/-- C9 witness: get_conn on the empty pool opens the fresh connection 0. -/
theorem c9_witness : get_conn emptyPool = (0, { idle := [], nextConn := 1 }) :=
  c9_pool_lifo.2.1 emptyPool rfl

/-- C10: fsync on a clean handle performs no store writes and succeeds
unchanged; any successful fsync leaves the dirty flag clear, so an
immediately repeated fsync is a no-op on both store and handle; and close
is literally fsync. -/
theorem c10_fsync_idempotent :
    (∀ (fs : FsState) (h : FileHandle), h.dirty = false → fileFsync fs h = Except.ok (fs, h)) ∧
    (∀ (fs : FsState) (h : FileHandle) (fs2 : FsState) (h2 : FileHandle),
      fileFsync fs h = Except.ok (fs2, h2) →
      h2.dirty = false ∧ fileFsync fs2 h2 = Except.ok (fs2, h2)) ∧
    (∀ (fs : FsState) (h : FileHandle), fileClose fs h = fileFsync fs h) := by
  refine ⟨?_, ?_, fun fs h => rfl⟩
  · intro fs h hd
    unfold fileFsync
    rw [if_pos hd]
  · intro fs h fs2 h2 heq
    unfold fileFsync at heq
    by_cases hd : h.dirty = false
    · rw [if_pos hd] at heq
      simp only [Except.ok.injEq, Prod.mk.injEq] at heq
      obtain ⟨rfl, rfl⟩ := heq
      refine ⟨hd, ?_⟩
      unfold fileFsync
      rw [if_pos hd]
    · rw [if_neg hd] at heq
      cases hg : get_or_create_ino fs h with
      | error e =>
        rw [hg] at heq
        exact absurd heq (by simp)
      | ok r =>
        rw [hg] at heq
        simp only [Except.ok.injEq, Prod.mk.injEq] at heq
        obtain ⟨rfl, rfl⟩ := heq
        refine ⟨rfl, ?_⟩
        unfold fileFsync
        rw [if_pos rfl]

/-- C10 witness: fsync on a concrete clean handle is a no-op, and after a
successful fsync of the dirty twin the handle is clean and a repeated
fsync is a no-op. -/
theorem c10_witness :
    fileFsync exFs1 hClean10 = Except.ok (exFs1, hClean10) ∧
    (hClean10.dirty = false ∧ fileFsync fsAfter10 hClean10 = Except.ok (fsAfter10, hClean10)) :=
  ⟨c10_fsync_idempotent.1 exFs1 hClean10 rfl,
   c10_fsync_idempotent.2.1 exFs1 hDirty10 fsAfter10 hClean10 (by decide)⟩
